import Mathlib

/-!
# Traffic-light state machine (langium `examples/statemachine/example`)

A shallow embedding of the two C++ programs

* `trafficlight_imperative.cpp`: table-driven, `map<State, map<Event, State>>`;
* `trafficlight_oop.cpp`: one class per state, virtual dispatch, `transition_to`.

Conventions of the embedding.

* `std::map` is an association list kept in key order (`StdMap`); `find` gives
  `none` for `end()`.
* Global variables and the heap are passed explicitly.
* An operation whose C++ behaviour is undefined (dereferencing `end()`, a null
  or dangling pointer) returns `none`; every defined execution returns `some`.
* What a statement writes to `std::cout` is recorded as a value of a `Line`
  type with one constructor per output statement; `render` gives the text.
-/

/-! ## `std::map` -/

/-- Key types of the maps used by the programs, with the comparison `std::less`
that orders the entries. -/
class MapKey (K : Type) where
  /-- The comparison `a < b` on keys. -/
  less : K → K → Bool

/-- Model of `std::map<K, V>`: the entries in iteration order. -/
abbrev StdMap (K V : Type) := List (K × V)

namespace StdMap

variable {K V : Type}

/-- The empty map, as for a default-constructed global. -/
def empty : StdMap K V := []

/-- Model of `m.find(k)`: `none` stands for `m.end()`, `some v` for an iterator
whose `->second` is `v`. -/
def find [DecidableEq K] : StdMap K V → K → Option V
  | [], _ => none
  | (k', v) :: rest, k => if k = k' then some v else find rest k

/-- Model of `m.insert({k, v})`: adds the entry at its place in key order, and
does nothing when the key is already present. -/
def insert [DecidableEq K] [MapKey K] : StdMap K V → K → V → StdMap K V
  | [], k, v => [(k, v)]
  | (k', v') :: rest, k, v =>
    if k = k' then (k', v') :: rest
    else if MapKey.less k k' then (k, v) :: (k', v') :: rest
    else (k', v') :: insert rest k v

/-- Model of `m[k] = v`: `operator[]` creates the entry when it is missing, the
assignment then replaces its value. -/
def assign [DecidableEq K] [MapKey K] : StdMap K V → K → V → StdMap K V
  | [], k, v => [(k, v)]
  | (k', v') :: rest, k, v =>
    if k = k' then (k', v) :: rest
    else if MapKey.less k k' then (k, v) :: (k', v') :: rest
    else (k', v') :: assign rest k v

/-- Model of the initializer-list constructor `map<K, V>{{k1, v1}, ...}`: the
entries are inserted one after the other into an empty map. -/
def ofList [DecidableEq K] [MapKey K] (l : List (K × V)) : StdMap K V :=
  l.foldl (fun m kv => insert m kv.1 kv.2) empty

/-- Model of reading `m[k]`: the value stored under `k`, or a value-initialised
one in a freshly created entry; the second component is the map afterwards. -/
def subscript [DecidableEq K] [MapKey K] (m : StdMap K V) (k : K) (dflt : V) : V × StdMap K V :=
  match find m k with
  | some v => (v, m)
  | none => (dflt, insert m k dflt)

/-- The keys of the map (the `first` of each entry). -/
def keys (m : StdMap K V) : List K := m.map Prod.fst

/-- The mapped values of the map (the `second` of each entry). -/
def values (m : StdMap K V) : List V := m.map Prod.snd

end StdMap

/-- Lexicographic comparison of two character sequences by character code, as
`std::string::compare` does. -/
def lexLess : List Char → List Char → Bool
  | [], [] => false
  | [], _ :: _ => true
  | _ :: _, [] => false
  | a :: as, b :: bs =>
    if a.toNat < b.toNat then true
    else if b.toNat < a.toNat then false
    else lexLess as bs

/-- The keys of type `std::string` are compared lexicographically. -/
instance : MapKey String where
  less a b := lexLess a.data b.data

/-! ## `trafficlight_imperative.cpp` -/

namespace Imperative

/-- The `enum Event {Next, SwitchCapacity}`. -/
inductive Event
  | Next
  | SwitchCapacity
  deriving DecidableEq, Repr

/-- The `enum State{PowerOff, RedLight, YellowLight, GreenLight}`. -/
inductive State
  | PowerOff
  | RedLight
  | YellowLight
  | GreenLight
  deriving DecidableEq, Repr

/-- The integer value of an enumerator of `Event`. -/
def Event.toNat : Event → Nat
  | .Next => 0
  | .SwitchCapacity => 1

/-- The integer value of an enumerator of `State`. -/
def State.toNat : State → Nat
  | .PowerOff => 0
  | .RedLight => 1
  | .YellowLight => 2
  | .GreenLight => 3

instance : MapKey Event where
  less a b := decide (a.toNat < b.toNat)

instance : MapKey State where
  less a b := decide (a.toNat < b.toNat)

/-- The global `map<Event, string> event_to_str`. -/
def event_to_str : StdMap Event String :=
  StdMap.ofList [(.Next, "Next"), (.SwitchCapacity, "SwitchCapacity")]

/-- The global `map<string, Event> str_to_event`. -/
def str_to_event : StdMap String Event :=
  StdMap.ofList [("Next", .Next), ("SwitchCapacity", .SwitchCapacity)]

/-- The global `map<State, string> state_to_str`. -/
def state_to_str : StdMap State String :=
  StdMap.ofList [(.PowerOff, "PowerOff"), (.RedLight, "RedLight"),
    (.YellowLight, "YellowLight"), (.GreenLight, "GreenLight")]

/-- The text of `state_to_str[s]` as read by the output statements. -/
def state_name (s : State) : String := (StdMap.subscript state_to_str s "").1

/-- The text of `event_to_str[e]`: the input line that names the event. -/
def event_name (e : Event) : String := (StdMap.subscript event_to_str e "").1

/-- The type of the global `statemachine`. -/
abbrev Table := StdMap State (StdMap Event State)

/-- The function `initiate_statemachine`, acting on the global `statemachine`. -/
def initiate_statemachine (statemachine : Table) : Table :=
  let sm1 := StdMap.assign statemachine State.PowerOff
    (StdMap.ofList [(Event.SwitchCapacity, State.RedLight)])
  let sm2 := StdMap.assign sm1 State.RedLight
    (StdMap.ofList [(Event.Next, State.GreenLight), (Event.SwitchCapacity, State.PowerOff)])
  let sm3 := StdMap.assign sm2 State.YellowLight
    (StdMap.ofList [(Event.Next, State.RedLight), (Event.SwitchCapacity, State.PowerOff)])
  StdMap.assign sm3 State.GreenLight
    (StdMap.ofList [(Event.Next, State.YellowLight), (Event.SwitchCapacity, State.PowerOff)])

/-- The variables the main loop works on: the global `statemachine` and the
local `curr_state` of `main`. -/
structure Vars where
  statemachine : Table
  curr_state : State
  deriving DecidableEq, Repr

/-- One line written to `std::cout` by the loop of `main`. -/
inductive Line
  /-- Line 68: the input is not a key of `str_to_event`. -/
  | not_determined (input : String)
  /-- Line 77: the event has no entry in the current state's sub-map. -/
  | no_event (input : String) (curr : String)
  /-- Line 82: the transition is taken. -/
  | new_state (name : String)
  deriving DecidableEq, Repr

/-- The text of an output line. -/
def Line.render : Line → String
  | .not_determined input => "Event " ++ input ++ " is not determined for the statemachine."
  | .no_event input curr => "There is no event " ++ input ++ " for the state " ++ curr ++ "."
  | .new_state name => "New state is " ++ name ++ "."

/-- Whether a line reports that the event has no transition in the current state. -/
def Line.rejected : Line → Bool
  | .no_event _ _ => true
  | _ => false

/-- Lines 74-75 of `main`: `statemachine.find(curr_state)->second` followed by
`find(event)` on the copy. The outer `none` is the undefined dereference of
`statemachine.end()`; `some none` is `event_to_state.end()`. -/
def lookup (statemachine : Table) (curr_state : State) (event : Event) : Option (Option State) :=
  match StdMap.find statemachine curr_state with
  | none => none
  | some event_to_state => some (StdMap.find event_to_state event)

/-- Lines 73-83 of `main`: the body of the loop once the input has been
recognised as `event`. -/
def dispatch (v : Vars) (input : String) (event : Event) : Option (Line × Vars) :=
  match lookup v.statemachine v.curr_state event with
  | none => none
  | some none => some (Line.no_event input (state_name v.curr_state), v)
  | some (some new_state) =>
    some (Line.new_state (state_name new_state), Vars.mk v.statemachine new_state)

/-- Lines 66-83 of `main`: one iteration of the loop on the line `input`. -/
def loop_body (v : Vars) (input : String) : Option (Line × Vars) :=
  match StdMap.find str_to_event input with
  | none => some (Line.not_determined input, v)
  | some event => dispatch v input event

/-- Lines 65-84 of `main`: the loop over the lines of the input, returning the
lines written and the variables at the end. -/
def main_loop : Vars → List String → Option (List Line × Vars)
  | v, [] => some ([], v)
  | v, input :: rest =>
    match loop_body v input with
    | none => none
    | some (line, v') =>
      match main_loop v' rest with
      | none => none
      | some (lines, v'') => some (line :: lines, v'')

/-- Lines 55 and 60 of `main`: the variables when the loop is entered. -/
def main_init : Vars :=
  Vars.mk (initiate_statemachine StdMap.empty) State.PowerOff

/-- The function `main` from line 65 on, for the given input lines. -/
def main (inputs : List String) : Option (List Line × Vars) :=
  main_loop main_init inputs

end Imperative

/-! ## `trafficlight_oop.cpp` -/

namespace Oop

/-- The dynamic type of an object created by `new`: the class `State` itself or
one of its four subclasses. -/
inductive StateClass
  | State
  | PowerOff
  | RedLight
  | YellowLight
  | GreenLight
  deriving DecidableEq, Repr

/-- A pointer to a `State` object: `none` is `nullptr`, `some a` an address. -/
abbrev StatePtr := Option Nat

/-- A pointer to the `TrafficLight`; the program creates a single one. -/
inductive TrafficLightPtr
  | this
  deriving DecidableEq, Repr

/-- An object of class `State` or of a subclass: its dynamic type and the
member `statemachine`, which is `none` until `set_context` has stored a pointer
in it. -/
structure State where
  cls : StateClass
  statemachine : Option TrafficLightPtr
  deriving DecidableEq, Repr

/-- The class `TrafficLight`: its only member is `state`. -/
structure TrafficLight where
  state : StatePtr
  deriving DecidableEq, Repr

/-- The memory of the program: the live `State` objects by address, the next
address `new` hands out, and the `TrafficLight`. -/
structure Memory where
  heap : Nat → Option State
  brk : Nat
  light : TrafficLight

/-- One line written to `std::cout`. -/
inductive Line
  /-- Line 38: the constructor prints the name of the initial state. -/
  | initial (name : String)
  /-- Lines 21 and 25: the handlers of the base class. -/
  | impossible
  /-- Line 48: `transition_to` prints both names. -/
  | arrow (old new : String)
  /-- Line 141: the input is not a key of `event_by_name`. -/
  | no_event (input : String)
  deriving DecidableEq, Repr

/-- The text of an output line. -/
def Line.render : Line → String
  | .initial name => "[" ++ name ++ "]"
  | .impossible => "Impossible event for the current state."
  | .arrow old new => old ++ " ===> " ++ new
  | .no_event input => "There is no event <" ++ input ++ "> in the TrafficLight statemachine."

/-- Whether a line reports that the event is impossible in the current state. -/
def Line.rejected : Line → Bool
  | .impossible => true
  | _ => false

/-- The virtual function `get_name`, by dynamic type. -/
def StateClass.get_name : StateClass → String
  | .State => "Unknown"
  | .PowerOff => "PowerOff"
  | .RedLight => "RedLight"
  | .YellowLight => "YellowLight"
  | .GreenLight => "GreenLight"

/-- Reading through a `State*`: undefined for `nullptr` and for an address that
holds no live object. -/
def deref (m : Memory) (p : StatePtr) : Option State :=
  match p with
  | none => none
  | some a => m.heap a

/-- The expression `new C` for a class `C`: a fresh object whose member
`statemachine` is not initialised. -/
def new (m : Memory) (c : StateClass) : StatePtr × Memory :=
  (some m.brk,
   Memory.mk (fun a => if a = m.brk then some (State.mk c none) else m.heap a) (m.brk + 1) m.light)

/-- The statement `delete p` for a non-null `p`: undefined unless `p` holds a
live object. -/
def delete (m : Memory) (a : Nat) : Option Memory :=
  match m.heap a with
  | none => none
  | some _ => some (Memory.mk (fun b => if b = a then none else m.heap b) m.brk m.light)

/-- The call `p->set_context(&light)` (lines 12-14). -/
def set_context (m : Memory) (p : StatePtr) : Option Memory :=
  match p with
  | none => none
  | some a =>
    match m.heap a with
    | none => none
    | some obj =>
      some (Memory.mk
        (fun b => if b = a then some (State.mk obj.cls (some TrafficLightPtr.this)) else m.heap b)
        m.brk m.light)

/-- The call `p->get_name()`. -/
def get_name (m : Memory) (p : StatePtr) : Option String :=
  match deref m p with
  | none => none
  | some obj => some obj.cls.get_name

/-- The constructor `TrafficLight(State* initial_state)` (lines 35-39). -/
def TrafficLight.ctor (m : Memory) (initial_state : StatePtr) : Option (Line × Memory) :=
  match set_context m initial_state with
  | none => none
  | some m1 =>
    let m2 := Memory.mk m1.heap m1.brk (TrafficLight.mk initial_state)
    match get_name m2 m2.light.state with
    | none => none
    | some name => some (Line.initial name, m2)

/-- The member function `TrafficLight::transition_to` (lines 47-54). -/
def TrafficLight.transition_to (m : Memory) (new_state : StatePtr) : Option (Line × Memory) :=
  match get_name m m.light.state with
  | none => none
  | some old_name =>
    match get_name m new_state with
    | none => none
    | some new_name =>
      let deleted :=
        match m.light.state with
        | none => some m
        | some a => delete m a
      match deleted with
      | none => none
      | some m1 =>
        match set_context m1 new_state with
        | none => none
        | some m2 =>
          some (Line.arrow old_name new_name, Memory.mk m2.heap m2.brk (TrafficLight.mk new_state))

/-- The statement `statemachine->transition_to(new C)` in a handler of the
object `self`: undefined when the member `statemachine` was never set. -/
def transition_from (m : Memory) (self : State) (c : StateClass) : Option (Line × Memory) :=
  match self.statemachine with
  | none => none
  | some TrafficLightPtr.this =>
    let (p, m1) := new m c
    TrafficLight.transition_to m1 p

/-- The handlers `State::switchCapacity` of the base class (lines 20-22). -/
def State.switchCapacity (m : Memory) (_self : State) : Option (Line × Memory) :=
  some (Line.impossible, m)

/-- The handler `State::next` of the base class (lines 24-26). -/
def State.next (m : Memory) (_self : State) : Option (Line × Memory) :=
  some (Line.impossible, m)

/-- The handler `PowerOff::switchCapacity` (lines 94-96). -/
def PowerOff.switchCapacity (m : Memory) (self : State) : Option (Line × Memory) :=
  transition_from m self StateClass.RedLight

/-- The handler `RedLight::switchCapacity` (lines 100-102). -/
def RedLight.switchCapacity (m : Memory) (self : State) : Option (Line × Memory) :=
  transition_from m self StateClass.PowerOff

/-- The handler `RedLight::next` (lines 104-106). -/
def RedLight.next (m : Memory) (self : State) : Option (Line × Memory) :=
  transition_from m self StateClass.GreenLight

/-- The handler `YellowLight::switchCapacity` (lines 110-112). -/
def YellowLight.switchCapacity (m : Memory) (self : State) : Option (Line × Memory) :=
  transition_from m self StateClass.PowerOff

/-- The handler `YellowLight::next` (lines 114-116). -/
def YellowLight.next (m : Memory) (self : State) : Option (Line × Memory) :=
  transition_from m self StateClass.RedLight

/-- The handler `GreenLight::switchCapacity` (lines 120-122). -/
def GreenLight.switchCapacity (m : Memory) (self : State) : Option (Line × Memory) :=
  transition_from m self StateClass.PowerOff

/-- The handler `GreenLight::next` (lines 124-126). -/
def GreenLight.next (m : Memory) (self : State) : Option (Line × Memory) :=
  transition_from m self StateClass.YellowLight

/-- The virtual call `self.switchCapacity()`: the final overrider for each
dynamic type (class declarations, lines 66-91). -/
def virtual_switchCapacity (m : Memory) (self : State) : Option (Line × Memory) :=
  match self.cls with
  | .State => State.switchCapacity m self
  | .PowerOff => PowerOff.switchCapacity m self
  | .RedLight => RedLight.switchCapacity m self
  | .YellowLight => YellowLight.switchCapacity m self
  | .GreenLight => GreenLight.switchCapacity m self

/-- The virtual call `self.next()`: `PowerOff` does not override `next`. -/
def virtual_next (m : Memory) (self : State) : Option (Line × Memory) :=
  match self.cls with
  | .State => State.next m self
  | .PowerOff => State.next m self
  | .RedLight => RedLight.next m self
  | .YellowLight => YellowLight.next m self
  | .GreenLight => GreenLight.next m self

/-- The member function `TrafficLight::switchCapacity` (lines 56-58). -/
def TrafficLight.switchCapacity (m : Memory) : Option (Line × Memory) :=
  match deref m m.light.state with
  | none => none
  | some self => virtual_switchCapacity m self

/-- The member function `TrafficLight::next` (lines 60-62). -/
def TrafficLight.next (m : Memory) : Option (Line × Memory) :=
  match deref m m.light.state with
  | none => none
  | some self => virtual_next m self

/-- The `typedef void (TrafficLight::*Event)()`: the two member functions whose
address `main` takes. -/
inductive Event
  | switchCapacity
  | next
  deriving DecidableEq, Repr

/-- The call `(statemachine->*event_invoker)()` (line 145). -/
def invoke (m : Memory) (event_invoker : Event) : Option (Line × Memory) :=
  match event_invoker with
  | .switchCapacity => TrafficLight.switchCapacity m
  | .next => TrafficLight.next m

/-- The map `event_by_name` after lines 135-136 of `main`. -/
def event_by_name : StdMap String Event :=
  StdMap.assign (StdMap.assign StdMap.empty "switchCapacity" Event.switchCapacity)
    "next" Event.next

/-- Lines 139-145 of `main`: one iteration of the loop on the line `input`. -/
def loop_body (m : Memory) (input : String) : Option (Line × Memory) :=
  match StdMap.find event_by_name input with
  | none => some (Line.no_event input, m)
  | some event_invoker => invoke m event_invoker

/-- Lines 138-146 of `main`: the loop over the lines of the input. -/
def main_loop : Memory → List String → Option (List Line × Memory)
  | m, [] => some ([], m)
  | m, input :: rest =>
    match loop_body m input with
    | none => none
    | some (line, m') =>
      match main_loop m' rest with
      | none => none
      | some (lines, m'') => some (line :: lines, m'')

/-- The memory before `main` runs: no `State` object, and the default member
initialiser `state = nullptr`. -/
def Memory.initial : Memory :=
  Memory.mk (fun _ => none) 0 (TrafficLight.mk none)

/-- The expression `new TrafficLight(new C)`; line 132 of `main` has `C = PowerOff`. -/
def construct (c : StateClass) : Option (Line × Memory) :=
  let (p, m) := new Memory.initial c
  TrafficLight.ctor m p

/-- The function `main` up to the end of its loop: the lines written, the first
being the constructor's, and the memory at the end. -/
def main (inputs : List String) : Option (List Line × Memory) :=
  match construct StateClass.PowerOff with
  | none => none
  | some (line, m) =>
    match main_loop m inputs with
    | none => none
    | some (lines, m') => some (line :: lines, m')

/-- The dynamic type of the object `TrafficLight::state` points to. -/
def current_class (m : Memory) : Option StateClass :=
  match deref m m.light.state with
  | none => none
  | some obj => some obj.cls

end Oop

/-! ## The transition table of the specification -/

namespace Spec

open Imperative

/-- The traffic-light table as the specification lists it:
`PowerOff -[SwitchCapacity]-> Red`; `Red -[Next]-> Green`,
`Red -[SwitchCapacity]-> PowerOff`; `Green -[Next]-> Yellow`,
`Green -[SwitchCapacity]-> PowerOff`; `Yellow -[Next]-> Red`,
`Yellow -[SwitchCapacity]-> PowerOff`; no other pair has an entry. -/
def traffic_light_table : State → Event → Option State
  | .PowerOff, .SwitchCapacity => some .RedLight
  | .RedLight, .Next => some .GreenLight
  | .RedLight, .SwitchCapacity => some .PowerOff
  | .GreenLight, .Next => some .YellowLight
  | .GreenLight, .SwitchCapacity => some .PowerOff
  | .YellowLight, .Next => some .RedLight
  | .YellowLight, .SwitchCapacity => some .PowerOff
  | _, _ => none

end Spec

/-! ## Correspondence between the two programs -/

namespace Oop

/-- The member function of `TrafficLight` that stands for an event of the
table-driven program: `Next` is `TrafficLight::next`, `SwitchCapacity` is
`TrafficLight::switchCapacity`. -/
def method_of : Imperative.Event → Event
  | .Next => Event.next
  | .SwitchCapacity => Event.switchCapacity

/-- The key of `event_by_name` under which a member function is stored. -/
def Event.key : Event → String
  | .next => "next"
  | .switchCapacity => "switchCapacity"

/-- The class that a handler passes to `new`, by dynamic type of the current
state and member function invoked; `none` where the handler of the base class
runs. A tabulation of lines 20-26 and 93-126 used to state lemmas. -/
def successor : StateClass → Event → Option StateClass
  | .State, _ => none
  | .PowerOff, .switchCapacity => some .RedLight
  | .PowerOff, .next => none
  | .RedLight, .switchCapacity => some .PowerOff
  | .RedLight, .next => some .GreenLight
  | .YellowLight, .switchCapacity => some .PowerOff
  | .YellowLight, .next => some .RedLight
  | .GreenLight, .switchCapacity => some .PowerOff
  | .GreenLight, .next => some .YellowLight

/-- The rejections and the final class that `successor` gives for a sequence of
calls started in class `c`: a call with no successor is rejected and keeps the
class. Used to state lemmas. -/
def successor_run : StateClass → List Event → List Bool × StateClass
  | c, [] => ([], c)
  | c, e :: es =>
    ((successor c e).isNone :: (successor_run ((successor c e).getD c) es).1,
      (successor_run ((successor c e).getD c) es).2)

/-- The state of the memory that the `TrafficLight` maintains between calls:
`state` points to a live object whose member `statemachine` is set, and no
object lives at or above the next address of `new`. -/
def WellFormed (m : Memory) : Prop :=
  ∃ a obj, m.light.state = some a ∧ m.heap a = some obj ∧
    obj.statemachine = some TrafficLightPtr.this ∧ ∀ b, m.brk ≤ b → m.heap b = none

/-- The class whose name is the name of a state of the table-driven program. -/
def class_of : Imperative.State → StateClass
  | .PowerOff => .PowerOff
  | .RedLight => .RedLight
  | .YellowLight => .YellowLight
  | .GreenLight => .GreenLight

/-- The line of the polymorphic program that stands for a line of the
table-driven program. The two programs spell the event names differently, so
`Next` and `next` are exchanged, `SwitchCapacity` and `switchCapacity` are
exchanged, and every other line is kept. -/
def respell (input : String) : String :=
  if input = "Next" then "next"
  else if input = "SwitchCapacity" then "switchCapacity"
  else if input = "next" then "Next"
  else if input = "switchCapacity" then "SwitchCapacity"
  else input

end Oop

/-! ## Lemmas on `std::map` -/

namespace StdMap

variable {K V : Type} [DecidableEq K] [MapKey K]

theorem find_assign_same (m : StdMap K V) (k : K) (v : V) :
    find (assign m k v) k = some v := by
  induction m with
  | nil => simp [assign, find]
  | cons hd tl ih =>
    obtain ⟨k', v'⟩ := hd
    by_cases h : k = k'
    · simp [assign, find, h]
    · by_cases hl : MapKey.less k k' = true
      · simp [assign, find, h, hl]
      · simp [assign, find, h, hl, ih]

theorem find_assign_other (m : StdMap K V) (k k2 : K) (v : V) (hne : k2 ≠ k) :
    find (assign m k v) k2 = find m k2 := by
  induction m with
  | nil => simp [assign, find, hne]
  | cons hd tl ih =>
    obtain ⟨k', v'⟩ := hd
    by_cases h : k = k'
    · subst h
      simp [assign, find, hne]
    · by_cases hl : MapKey.less k k' = true
      · simp [assign, find, h, hl, hne]
      · simp [assign, find, h, hl, ih]

omit [MapKey K] in
theorem find_eq_none_iff (m : StdMap K V) (k : K) :
    find m k = none ↔ k ∉ keys m := by
  induction m with
  | nil => simp [find, keys]
  | cons hd tl ih =>
    obtain ⟨k', v'⟩ := hd
    by_cases h : k = k'
    · simp [find, keys, h]
    · simp only [keys] at ih
      simp [find, keys, h, ih]

omit [MapKey K] in
theorem find_isSome_iff (m : StdMap K V) (k : K) :
    (find m k).isSome = true ↔ k ∈ keys m := by
  have h := find_eq_none_iff m k
  cases hf : find m k with
  | none => simpa [hf] using h
  | some v =>
    rw [hf] at h
    simp at h
    simpa using h

omit [MapKey K] in
theorem find_some_mem (m : StdMap K V) (k : K) (v : V) (h : find m k = some v) :
    k ∈ keys m ∧ v ∈ values m := by
  induction m with
  | nil => simp [find] at h
  | cons hd tl ih =>
    obtain ⟨k', v'⟩ := hd
    by_cases hk : k = k'
    · simp [find, hk] at h
      simp [keys, values, hk, h]
    · simp [find, hk] at h
      have := ih h
      simp only [keys, values] at this
      simp [keys, values, this]

end StdMap

/-! ## Lemmas on the table-driven program -/

namespace Imperative

theorem find_str_to_event (input : String) :
    StdMap.find str_to_event input =
      if input = "Next" then some Event.Next
      else if input = "SwitchCapacity" then some Event.SwitchCapacity else none := by
  have h : str_to_event = [("Next", Event.Next), ("SwitchCapacity", Event.SwitchCapacity)] := by
    decide
  rw [h]
  simp [StdMap.find]

/-- The line `event_to_str[event]` is recognised as `event`. -/
theorem find_str_to_event_name (event : Event) :
    StdMap.find str_to_event (event_name event) = some event := by
  cases event <;> decide

/-- Reading `state_to_str[s]` never creates an entry: the map is left as it is. -/
theorem state_to_str_unchanged (s : State) :
    (StdMap.subscript state_to_str s "").2 = state_to_str := by
  cases s <;> decide

theorem state_name_injective (s t : State) (h : state_name s = state_name t) : s = t := by
  cases s <;> cases t <;> first | rfl | (exact absurd h (by decide))

theorem lookup_initiate (sm0 : Table) (S : State) (E : Event) :
    lookup (initiate_statemachine sm0) S E = some (Spec.traffic_light_table S E) := by
  unfold lookup initiate_statemachine
  cases S <;>
    simp only [StdMap.find_assign_same, StdMap.find_assign_other, ne_eq, reduceCtorEq,
      not_false_eq_true] <;>
    cases E <;> decide

theorem dispatch_table (v : Vars) (input : String) (event : Event) (line : Line) (v' : Vars)
    (h : dispatch v input event = some (line, v')) :
    v'.statemachine = v.statemachine ∧
      (v'.curr_state = v.curr_state ∨
        ∃ sub, StdMap.find v.statemachine v.curr_state = some sub ∧
          StdMap.find sub event = some v'.curr_state) := by
  unfold dispatch lookup at h
  cases hs : StdMap.find v.statemachine v.curr_state with
  | none => simp [hs] at h
  | some sub =>
    cases he : StdMap.find sub event with
    | none =>
      simp [hs, he] at h
      simp [← h.2]
    | some t =>
      simp [hs, he] at h
      simp [← h.2, he]

theorem loop_body_table (v : Vars) (input : String) (line : Line) (v' : Vars)
    (h : loop_body v input = some (line, v')) :
    v'.statemachine = v.statemachine ∧
      (v'.curr_state = v.curr_state ∨
        ∃ sub event, StdMap.find v.statemachine v.curr_state = some sub ∧
          StdMap.find sub event = some v'.curr_state) := by
  unfold loop_body at h
  cases hi : StdMap.find str_to_event input with
  | none =>
    simp [hi] at h
    simp [← h.2]
  | some event =>
    simp only [hi] at h
    obtain ⟨h1, h2⟩ := dispatch_table v input event line v' h
    refine ⟨h1, ?_⟩
    rcases h2 with h2 | ⟨sub, hs, ht⟩
    · exact Or.inl h2
    · exact Or.inr ⟨sub, event, hs, ht⟩

theorem main_loop_table (v : Vars) (inputs : List String) (lines : List Line) (v' : Vars)
    (h : main_loop v inputs = some (lines, v')) :
    v'.statemachine = v.statemachine ∧
      (v'.curr_state = v.curr_state ∨
        ∃ sub ∈ StdMap.values v.statemachine, v'.curr_state ∈ StdMap.values sub) := by
  induction inputs generalizing v lines with
  | nil =>
    simp [main_loop] at h
    simp [← h.2]
  | cons input rest ih =>
    unfold main_loop at h
    cases hb : loop_body v input with
    | none => simp [hb] at h
    | some r =>
      obtain ⟨line, v1⟩ := r
      cases hr : main_loop v1 rest with
      | none => simp [hb, hr] at h
      | some r2 =>
        obtain ⟨lines2, v2⟩ := r2
        simp [hb, hr] at h
        obtain ⟨-, hv⟩ := h
        subst hv
        obtain ⟨t1, s1⟩ := loop_body_table v input line v1 hb
        obtain ⟨t2, s2⟩ := ih v1 lines2 hr
        refine ⟨t2.trans t1, ?_⟩
        rw [t1] at s2
        rcases s2 with s2 | s2
        · rcases s1 with s1 | ⟨sub, event, hs, ht⟩
          · exact Or.inl (s2.trans s1)
          · refine Or.inr ⟨sub, (StdMap.find_some_mem _ _ _ hs).2, ?_⟩
            rw [s2]
            exact (StdMap.find_some_mem _ _ _ ht).2
        · exact Or.inr s2

/-- One iteration on the line that names `e`, with the table of
`initiate_statemachine`: the table of the specification decides the outcome. -/
theorem loop_body_event (sm0 : Table) (s : State) (e : Event) :
    loop_body (Vars.mk (initiate_statemachine sm0) s) (event_name e) =
      some (match Spec.traffic_light_table s e with
        | none => (Line.no_event (event_name e) (state_name s),
            Vars.mk (initiate_statemachine sm0) s)
        | some t => (Line.new_state (state_name t), Vars.mk (initiate_statemachine sm0) t)) := by
  unfold loop_body
  rw [find_str_to_event_name]
  simp only [dispatch, lookup_initiate]
  cases Spec.traffic_light_table s e <;> rfl

/-- With the table of `initiate_statemachine` the loop is defined on every input. -/
theorem main_loop_total (sm0 : Table) (inputs : List String) (s : State) :
    ∃ lines v, main_loop (Vars.mk (initiate_statemachine sm0) s) inputs = some (lines, v) ∧
      v.statemachine = initiate_statemachine sm0 := by
  induction inputs generalizing s with
  | nil => exact ⟨[], _, rfl, rfl⟩
  | cons input rest ih =>
    have hb : ∃ line t, loop_body (Vars.mk (initiate_statemachine sm0) s) input =
        some (line, Vars.mk (initiate_statemachine sm0) t) := by
      unfold loop_body
      cases hf : StdMap.find str_to_event input with
      | none => exact ⟨_, s, rfl⟩
      | some e =>
        simp only [dispatch, lookup_initiate]
        cases Spec.traffic_light_table s e with
        | none => exact ⟨_, s, rfl⟩
        | some t => exact ⟨_, t, rfl⟩
    obtain ⟨line, t, hb⟩ := hb
    obtain ⟨lines, v, hl, hv⟩ := ih t
    exact ⟨line :: lines, v, by simp [main_loop, hb, hl], hv⟩

/-- A table is closed from `s0` when `s0` and every target are source keys. -/
theorem main_loop_defined_of_closed (sm : Table)
    (hclosed : ∀ sub ∈ StdMap.values sm, ∀ t ∈ StdMap.values sub, t ∈ StdMap.keys sm)
    (inputs : List String) (s0 : State) (h0 : s0 ∈ StdMap.keys sm) :
    ∃ r, main_loop (Vars.mk sm s0) inputs = some r := by
  induction inputs generalizing s0 with
  | nil => exact ⟨_, rfl⟩
  | cons input rest ih =>
    have hb : ∃ line t, loop_body (Vars.mk sm s0) input = some (line, Vars.mk sm t) ∧
        t ∈ StdMap.keys sm := by
      unfold loop_body
      cases hf : StdMap.find str_to_event input with
      | none => exact ⟨_, s0, rfl, h0⟩
      | some e =>
        cases hs : StdMap.find sm s0 with
        | none => exact absurd h0 ((StdMap.find_eq_none_iff sm s0).mp hs)
        | some sub =>
          cases he : StdMap.find sub e with
          | none =>
            exact ⟨Line.no_event input (state_name s0), s0,
              by simp [dispatch, lookup, hs, he], h0⟩
          | some t =>
            refine ⟨Line.new_state (state_name t), t, by simp [dispatch, lookup, hs, he], ?_⟩
            exact hclosed sub (StdMap.find_some_mem _ _ _ hs).2 t (StdMap.find_some_mem _ _ _ he).2
    obtain ⟨line, t, hb, ht⟩ := hb
    obtain ⟨r, hr⟩ := ih t ht
    exact ⟨(line :: r.1, r.2), by simp [main_loop, hb, hr]⟩

end Imperative

/-! ## Lemmas on the polymorphic program -/

namespace Oop

theorem find_event_by_name (input : String) :
    StdMap.find event_by_name input =
      if input = "next" then some Event.next
      else if input = "switchCapacity" then some Event.switchCapacity else none := by
  have h : event_by_name = [("next", Event.next), ("switchCapacity", Event.switchCapacity)] := by
    decide
  rw [h]
  simp [StdMap.find]

theorem find_event_by_name_key (e : Event) : StdMap.find event_by_name e.key = some e := by
  cases e <;> decide

/-- A handler that runs `statemachine->transition_to(new C)` on a well-formed
memory prints the two names, and leaves a well-formed memory whose current
object has class `C`. -/
theorem transition_from_spec (m : Memory) (a : Nat) (obj : State) (c : StateClass)
    (hs : m.light.state = some a) (hh : m.heap a = some obj)
    (hc : obj.statemachine = some TrafficLightPtr.this)
    (hb : ∀ b, m.brk ≤ b → m.heap b = none) :
    ∃ m', transition_from m obj c = some (Line.arrow obj.cls.get_name c.get_name, m') ∧
      WellFormed m' ∧ current_class m' = some c := by
  have hab : a ≠ m.brk := by
    intro h
    have := hb a (by omega)
    simp [hh] at this
  have hba : m.brk ≠ a := fun h => hab h.symm
  simp only [transition_from, hc, new, TrafficLight.transition_to, get_name, deref, hs,
    delete, set_context, if_neg hab, hh, if_pos, if_neg hba, if_true]
  refine ⟨_, rfl, ?_, ?_⟩
  · refine ⟨m.brk, State.mk c (some TrafficLightPtr.this), rfl, by simp, rfl, ?_⟩
    intro b hle
    have h1 : b ≠ m.brk := by
      intro h
      simp [h] at hle
    have h2 : m.heap b = none := hb b (by simp at hle; omega)
    simp [h1, h2]
  · simp [current_class, deref]

theorem current_class_of_wellFormed (m : Memory) (hw : WellFormed m) :
    ∃ c, current_class m = some c := by
  obtain ⟨a, obj, hs, hh, -, -⟩ := hw
  exact ⟨obj.cls, by simp [current_class, deref, hs, hh]⟩

theorem get_name_eq (m : Memory) (c : StateClass) (hc : current_class m = some c) :
    get_name m m.light.state = some c.get_name := by
  unfold current_class at hc
  unfold get_name
  cases hd : deref m m.light.state with
  | none => simp [hd] at hc
  | some obj =>
    simp [hd] at hc
    simp [hc]

/-- Where the base-class handler runs, the call prints its line and leaves the
memory as it is. -/
theorem invoke_rejected (m : Memory) (c : StateClass) (e : Event)
    (hc : current_class m = some c) (hs : successor c e = none) :
    invoke m e = some (Line.impossible, m) := by
  unfold current_class at hc
  cases hd : deref m m.light.state with
  | none => simp [hd] at hc
  | some obj =>
    simp [hd] at hc
    cases e <;> cases c <;> simp [successor] at hs <;>
      simp [invoke, TrafficLight.next, TrafficLight.switchCapacity, hd, virtual_next,
        virtual_switchCapacity, hc, State.next, State.switchCapacity]

/-- Where a subclass overrides the handler, the call prints the transition and
leaves a well-formed memory whose current object has the new class. -/
theorem invoke_transition (m : Memory) (hw : WellFormed m) (c c' : StateClass) (e : Event)
    (hc : current_class m = some c) (hs : successor c e = some c') :
    ∃ m', invoke m e = some (Line.arrow c.get_name c'.get_name, m') ∧
      WellFormed m' ∧ current_class m' = some c' := by
  obtain ⟨a, obj, hst, hh, hctx, hb⟩ := hw
  have hd : deref m m.light.state = some obj := by simp [deref, hst, hh]
  have hcls : obj.cls = c := by simpa [current_class, hd] using hc
  have key := transition_from_spec m a obj c' hst hh hctx hb
  rw [hcls] at key
  cases e <;> cases c <;> simp [successor] at hs <;> subst hs <;>
    simpa [invoke, TrafficLight.next, TrafficLight.switchCapacity, hd, virtual_next,
      virtual_switchCapacity, hcls, PowerOff.switchCapacity, RedLight.switchCapacity,
      RedLight.next, YellowLight.switchCapacity, YellowLight.next, GreenLight.switchCapacity,
      GreenLight.next] using key

/-- The class of the current object after a call, by the tabulation. -/
theorem invoke_total (m : Memory) (hw : WellFormed m) (c : StateClass) (e : Event)
    (hc : current_class m = some c) :
    ∃ line m', invoke m e = some (line, m') ∧ WellFormed m' ∧
      current_class m' = some ((successor c e).getD c) ∧
      (line = Line.impossible ↔ successor c e = none) := by
  cases hs : successor c e with
  | none =>
    exact ⟨Line.impossible, m, invoke_rejected m c e hc hs, hw, by simpa using hc, by simp⟩
  | some c' =>
    obtain ⟨m', h1, h2, h3⟩ := invoke_transition m hw c c' e hc hs
    exact ⟨_, m', h1, h2, by simpa using h3, by simp⟩

/-- The constructor, given a freshly allocated object, leaves a well-formed memory. -/
theorem construct_spec (c : StateClass) :
    ∃ m, construct c = some (Line.initial c.get_name, m) ∧ WellFormed m ∧
      current_class m = some c := by
  refine ⟨_, rfl, ?_, rfl⟩
  refine ⟨0, State.mk c (some TrafficLightPtr.this), rfl, rfl, rfl, ?_⟩
  intro b hb
  have : b ≠ 0 := by
    intro h
    subst h
    simp [new, Memory.initial] at hb
  simp [new, Memory.initial, this]

/-- One iteration of the loop on a well-formed memory is defined and keeps the
memory well formed. -/
theorem loop_body_total (m : Memory) (hw : WellFormed m) (c : StateClass) (input : String)
    (hc : current_class m = some c) :
    ∃ line m', loop_body m input = some (line, m') ∧ WellFormed m' ∧
      ∃ c', current_class m' = some c' ∧
        (c' = c ∨ ∃ c0 e, successor c0 e = some c') := by
  unfold loop_body
  cases hf : StdMap.find event_by_name input with
  | none => exact ⟨_, m, rfl, hw, c, hc, Or.inl rfl⟩
  | some e =>
    obtain ⟨line, m', h1, h2, h3, -⟩ := invoke_total m hw c e hc
    refine ⟨line, m', h1, h2, _, h3, ?_⟩
    cases hs : successor c e with
    | none => exact Or.inl rfl
    | some c' => exact Or.inr ⟨c, e, by simpa using hs⟩

/-- The loop on a well-formed memory is defined for every input and ends in a
well-formed memory. -/
theorem oop_main_loop_total (inputs : List String) (m : Memory) (hw : WellFormed m)
    (c : StateClass) (hc : current_class m = some c) :
    ∃ lines m', main_loop m inputs = some (lines, m') ∧ WellFormed m' ∧
      ∃ c', current_class m' = some c' ∧
        (c' = c ∨ ∃ c0 e, successor c0 e = some c') := by
  induction inputs generalizing m c with
  | nil => exact ⟨[], m, rfl, hw, c, hc, Or.inl rfl⟩
  | cons input rest ih =>
    obtain ⟨line, m1, h1, hw1, c1, hc1, hor1⟩ := loop_body_total m hw c input hc
    obtain ⟨lines, m2, h2, hw2, c2, hc2, hor2⟩ := ih m1 hw1 c1 hc1
    refine ⟨line :: lines, m2, by simp [main_loop, h1, h2], hw2, c2, hc2, ?_⟩
    rcases hor2 with h | h
    · subst h
      exact hor1
    · exact Or.inr h

theorem class_of_get_name (s : Imperative.State) :
    (class_of s).get_name = Imperative.state_name s := by
  cases s <;> decide

theorem class_eq_of_get_name (c : StateClass) (s : Imperative.State)
    (h : c.get_name = Imperative.state_name s) : c = class_of s := by
  cases c <;> cases s <;> first | rfl | (exact absurd h (by decide))

/-- The handlers of the classes encode the table of `initiate_statemachine`. -/
theorem successor_class_of (s : Imperative.State) (e : Imperative.Event) :
    successor (class_of s) (method_of e) = (Spec.traffic_light_table s e).map class_of := by
  cases s <;> cases e <;> rfl

/-- The two loops run side by side on the same events: both are defined, they
end in states of the same name, and they reject the same events. -/
theorem joint_run (sm0 : Imperative.Table) (evs : List Imperative.Event)
    (s : Imperative.State) (m : Memory) (hw : WellFormed m)
    (hc : current_class m = some (class_of s)) :
    ∃ lines v lines' m',
      Imperative.main_loop (Imperative.Vars.mk (Imperative.initiate_statemachine sm0) s)
        (evs.map Imperative.event_name) = some (lines, v) ∧
      main_loop m (evs.map (fun e => (method_of e).key)) = some (lines', m') ∧
      WellFormed m' ∧ current_class m' = some (class_of v.curr_state) ∧
      lines.map Imperative.Line.rejected = lines'.map Line.rejected := by
  induction evs generalizing s m with
  | nil => exact ⟨[], _, [], m, rfl, rfl, hw, hc, rfl⟩
  | cons e rest ih =>
    obtain ⟨line', m1, hi, hw1, hc1, hrej⟩ := invoke_total m hw (class_of s) (method_of e) hc
    have hb' : loop_body m (method_of e).key = some (line', m1) := by
      simp [loop_body, find_event_by_name_key, hi]
    have hb := Imperative.loop_body_event sm0 s e
    rw [successor_class_of] at hc1 hrej
    cases ht : Spec.traffic_light_table s e with
    | none =>
      rw [ht] at hb hc1 hrej
      simp only [Option.map_none', Option.getD_none] at hc1
      obtain ⟨lines, v, lines', m', h1, h2, h3, h4, h5⟩ := ih s m1 hw1 hc1
      have hl : line' = Line.impossible := hrej.mpr rfl
      simp only at hb
      refine ⟨Imperative.Line.no_event (Imperative.event_name e) (Imperative.state_name s)
        :: lines, v, line' :: lines', m', ?_, ?_, h3, h4, ?_⟩
      · simp [Imperative.main_loop, hb, h1]
      · simp [main_loop, hb', h2]
      · simp [h5, hl, Imperative.Line.rejected, Line.rejected]
    | some t =>
      rw [ht] at hb hc1 hrej
      simp only [Option.map_some', Option.getD_some] at hc1
      obtain ⟨lines, v, lines', m', h1, h2, h3, h4, h5⟩ := ih t m1 hw1 hc1
      have hl : line' ≠ Line.impossible := fun h => by simpa using hrej.mp h
      simp only at hb
      refine ⟨Imperative.Line.new_state (Imperative.state_name t) :: lines, v,
        line' :: lines', m', ?_, ?_, h3, h4, ?_⟩
      · simp [Imperative.main_loop, hb, h1]
      · simp [main_loop, hb', h2]
      · cases line' <;> simp_all [Imperative.Line.rejected, Line.rejected]

end Oop

/-! ## Lemmas on the two drivers -/

namespace Imperative

/-- Lines 73-83 with the table of `initiate_statemachine`, for any text of the
input line: the table of the specification decides the outcome. -/
theorem dispatch_initiate (sm0 : Table) (s : State) (input : String) (e : Event) :
    dispatch (Vars.mk (initiate_statemachine sm0) s) input e =
      some (match Spec.traffic_light_table s e with
        | none => (Line.no_event input (state_name s), Vars.mk (initiate_statemachine sm0) s)
        | some t => (Line.new_state (state_name t), Vars.mk (initiate_statemachine sm0) t)) := by
  simp only [dispatch, lookup_initiate]
  cases Spec.traffic_light_table s e <;> rfl

/-- Every state is a source key of the table left by `initiate_statemachine`. -/
theorem mem_keys_initiate (sm0 : Table) (s : State) :
    s ∈ StdMap.keys (initiate_statemachine sm0) := by
  rw [← StdMap.find_isSome_iff]
  have h := lookup_initiate sm0 s Event.Next
  unfold lookup at h
  cases hf : StdMap.find (initiate_statemachine sm0) s with
  | none => simp [hf] at h
  | some sub => rfl

/-- The loop on a concatenated input is the loop on the first part followed by
the loop on the second part, started from the variables the first one left. -/
theorem main_loop_append (v : Vars) (pre post : List String) :
    main_loop v (pre ++ post) =
      match main_loop v pre with
      | none => none
      | some (lines, v1) =>
        match main_loop v1 post with
        | none => none
        | some (lines2, v2) => some (lines ++ lines2, v2) := by
  induction pre generalizing v with
  | nil =>
    simp only [List.nil_append, main_loop]
    cases main_loop v post with
    | none => rfl
    | some r => rfl
  | cons input rest ih =>
    have e1 : main_loop v (input :: (rest ++ post)) =
        match loop_body v input with
        | none => none
        | some (line, v') =>
          match main_loop v' (rest ++ post) with
          | none => none
          | some (lines, v'') => some (line :: lines, v'') := rfl
    have e2 : main_loop v (input :: rest) =
        match loop_body v input with
        | none => none
        | some (line, v') =>
          match main_loop v' rest with
          | none => none
          | some (lines, v'') => some (line :: lines, v'') := rfl
    rw [List.cons_append, e1, e2]
    cases hb : loop_body v input with
    | none => rfl
    | some r =>
      obtain ⟨line, v1⟩ := r
      simp only
      rw [ih v1]
      cases hr : main_loop v1 rest with
      | none => rfl
      | some r2 =>
        obtain ⟨lines1, v2⟩ := r2
        simp only
        cases main_loop v2 post with
        | none => rfl
        | some r3 => rfl

end Imperative

namespace Oop

/-- A respelled line names the member function that corresponds to the event
the line names in the table-driven program, and is unknown when the line is. -/
theorem find_respell (input : String) :
    StdMap.find event_by_name (respell input) =
      (StdMap.find Imperative.str_to_event input).map method_of := by
  rw [find_event_by_name, Imperative.find_str_to_event]
  unfold respell
  by_cases h1 : input = "Next"
  · subst h1
    decide
  · by_cases h2 : input = "SwitchCapacity"
    · subst h2
      decide
    · by_cases h3 : input = "next"
      · subst h3
        decide
      · by_cases h4 : input = "switchCapacity"
        · subst h4
          decide
        · simp [h1, h2, h3, h4]

/-- One iteration on the key of a member function, on a well-formed memory. -/
theorem loop_body_key (m : Memory) (hw : WellFormed m) (c : StateClass) (e : Event)
    (hc : current_class m = some c) :
    ∃ line m', loop_body m e.key = some (line, m') ∧ WellFormed m' ∧
      current_class m' = some ((successor c e).getD c) ∧
      line.rejected = (successor c e).isNone := by
  obtain ⟨line, m', h1, h2, h3, h4⟩ := invoke_total m hw c e hc
  refine ⟨line, m', by simp [loop_body, find_event_by_name_key, h1], h2, h3, ?_⟩
  cases hs : successor c e with
  | none =>
    have : line = Line.impossible := h4.mpr hs
    simp [this, Line.rejected]
  | some c' =>
    have hne : line ≠ Line.impossible := fun h => by simpa [hs] using h4.mp h
    cases line <;> simp_all [Line.rejected]

/-- The loop on the keys of a sequence of member functions, on a well-formed
memory: it is defined, and `successor_run` gives its rejections and the class of
the current object at the end. -/
theorem main_loop_keys (es : List Event) (m : Memory) (hw : WellFormed m) (c : StateClass)
    (hc : current_class m = some c) :
    ∃ lines m', main_loop m (es.map Event.key) = some (lines, m') ∧ WellFormed m' ∧
      lines.map Line.rejected = (successor_run c es).1 ∧
      current_class m' = some (successor_run c es).2 := by
  induction es generalizing m c with
  | nil => exact ⟨[], m, rfl, hw, rfl, hc⟩
  | cons e rest ih =>
    obtain ⟨line, m1, h1, hw1, hc1, hr1⟩ := loop_body_key m hw c e hc
    obtain ⟨lines, m2, h2, hw2, hr2, hc2⟩ := ih m1 hw1 _ hc1
    refine ⟨line :: lines, m2, ?_, hw2, ?_, ?_⟩
    · simp [main_loop, h1, h2]
    · simp [successor_run, hr1, hr2]
    · simp [successor_run, hc2]

/-- The two loops run side by side on the same lines, respelled for the
polymorphic program: both are defined and end in states of the same name. -/
theorem joint_lines (sm0 : Imperative.Table) (inputs : List String)
    (s : Imperative.State) (m : Memory) (hw : WellFormed m)
    (hc : current_class m = some (class_of s)) :
    ∃ lines v lines' m',
      Imperative.main_loop (Imperative.Vars.mk (Imperative.initiate_statemachine sm0) s)
        inputs = some (lines, v) ∧
      main_loop m (inputs.map respell) = some (lines', m') ∧
      WellFormed m' ∧ current_class m' = some (class_of v.curr_state) := by
  induction inputs generalizing s m with
  | nil => exact ⟨[], _, [], m, rfl, rfl, hw, hc⟩
  | cons input rest ih =>
    have hf := find_respell input
    cases hi : StdMap.find Imperative.str_to_event input with
    | none =>
      rw [hi] at hf
      obtain ⟨lines, v, lines', m', h1, h2, h3, h4⟩ := ih s m hw hc
      refine ⟨Imperative.Line.not_determined input :: lines, v,
        Line.no_event (respell input) :: lines', m', ?_, ?_, h3, h4⟩
      · simp [Imperative.main_loop, Imperative.loop_body, hi, h1]
      · simp [main_loop, loop_body, hf, h2]
    | some e =>
      rw [hi] at hf
      obtain ⟨line', m1, hinv, hw1, hc1, -⟩ := invoke_total m hw (class_of s) (method_of e) hc
      rw [successor_class_of] at hc1
      have hd := Imperative.dispatch_initiate sm0 s input e
      cases ht : Spec.traffic_light_table s e with
      | none =>
        rw [ht] at hd hc1
        simp only [Option.map_none', Option.getD_none] at hc1
        simp only at hd
        obtain ⟨lines, v, lines', m', h1, h2, h3, h4⟩ := ih s m1 hw1 hc1
        refine ⟨Imperative.Line.no_event input (Imperative.state_name s) :: lines, v,
          line' :: lines', m', ?_, ?_, h3, h4⟩
        · simp [Imperative.main_loop, Imperative.loop_body, hi, hd, h1]
        · simp [main_loop, loop_body, hf, hinv, h2]
      | some t =>
        rw [ht] at hd hc1
        simp only [Option.map_some', Option.getD_some] at hc1
        simp only at hd
        obtain ⟨lines, v, lines', m', h1, h2, h3, h4⟩ := ih t m1 hw1 hc1
        refine ⟨Imperative.Line.new_state (Imperative.state_name t) :: lines, v,
          line' :: lines', m', ?_, ?_, h3, h4⟩
        · simp [Imperative.main_loop, Imperative.loop_body, hi, hd, h1]
        · simp [main_loop, loop_body, hf, hinv, h2]

end Oop

/-! ## The claims -/

/-- Claim C1: when the table maps `(S, E)` to `S2`, applying `E` in state `S`
reports the transition and makes `S2` the current state. Table-driven engine:
for every table, one iteration of the loop on a line recognised as `E` prints
the new-state line for `S2` and stores `S2` in `curr_state`. Polymorphic engine:
with the table of `initiate_statemachine`, on every well-formed memory whose
current object is named `S`, the member function for `E` prints
`S ===> S2` and leaves `state` pointing to a live object named `S2`. -/
theorem C1_defined_transition_is_taken :
    (∀ (sm : Imperative.Table) (S S2 : Imperative.State) (E : Imperative.Event)
        (input : String),
      StdMap.find Imperative.str_to_event input = some E →
      Imperative.lookup sm S E = some (some S2) →
      Imperative.loop_body (Imperative.Vars.mk sm S) input =
        some (Imperative.Line.new_state (Imperative.state_name S2),
          Imperative.Vars.mk sm S2)) ∧
    (∀ (S S2 : Imperative.State) (E : Imperative.Event) (m : Oop.Memory),
      Imperative.lookup (Imperative.initiate_statemachine StdMap.empty) S E = some (some S2) →
      Oop.WellFormed m →
      Oop.get_name m m.light.state = some (Imperative.state_name S) →
      ∃ m2, Oop.invoke m (Oop.method_of E) =
          some (Oop.Line.arrow (Imperative.state_name S) (Imperative.state_name S2), m2) ∧
        Oop.WellFormed m2 ∧
        Oop.get_name m2 m2.light.state = some (Imperative.state_name S2)) := by
  constructor
  · intro sm S S2 E input hin hl
    simp [Imperative.loop_body, Imperative.dispatch, hin, hl]
  · intro S S2 E m hl hw hn
    obtain ⟨c, hc⟩ := Oop.current_class_of_wellFormed m hw
    rw [Oop.get_name_eq m c hc] at hn
    have hcs : c = Oop.class_of S := Oop.class_eq_of_get_name c S (Option.some.inj hn)
    subst hcs
    rw [Imperative.lookup_initiate] at hl
    have ht : Spec.traffic_light_table S E = some S2 := Option.some.inj hl
    have hs : Oop.successor (Oop.class_of S) (Oop.method_of E) = some (Oop.class_of S2) := by
      rw [Oop.successor_class_of, ht]
      rfl
    obtain ⟨m2, h1, h2, h3⟩ :=
      Oop.invoke_transition m hw (Oop.class_of S) (Oop.class_of S2) (Oop.method_of E) hc hs
    refine ⟨m2, ?_, h2, ?_⟩
    · rw [h1, Oop.class_of_get_name, Oop.class_of_get_name]
    · rw [Oop.get_name_eq m2 _ h3, Oop.class_of_get_name]

/-- Witness of C1: `Next` in `RedLight` with the table of the program, and
`switchCapacity` on the freshly constructed `TrafficLight`. -/
theorem C1_defined_transition_is_taken_witness :
    Imperative.loop_body
        (Imperative.Vars.mk (Imperative.initiate_statemachine StdMap.empty)
          Imperative.State.RedLight) "Next" =
      some (Imperative.Line.new_state "GreenLight",
        Imperative.Vars.mk (Imperative.initiate_statemachine StdMap.empty)
          Imperative.State.GreenLight) ∧
    ∃ m m2, Oop.construct Oop.StateClass.PowerOff = some (Oop.Line.initial "PowerOff", m) ∧
      Oop.invoke m Oop.Event.switchCapacity = some (Oop.Line.arrow "PowerOff" "RedLight", m2) ∧
      Oop.get_name m2 m2.light.state = some "RedLight" := by
  refine ⟨C1_defined_transition_is_taken.1 (Imperative.initiate_statemachine StdMap.empty)
    Imperative.State.RedLight Imperative.State.GreenLight Imperative.Event.Next "Next"
    (by decide) (by decide), ?_⟩
  obtain ⟨m, hm, hw, hc⟩ := Oop.construct_spec Oop.StateClass.PowerOff
  obtain ⟨m2, h1, -, h3⟩ := C1_defined_transition_is_taken.2 Imperative.State.PowerOff
    Imperative.State.RedLight Imperative.Event.SwitchCapacity m (by decide) hw
    (Oop.get_name_eq m _ hc)
  exact ⟨m, m2, hm, h1, h3⟩

/-- Claim C2: when the table has no entry for `(S, E)`, applying `E` in state
`S` reports a rejection and leaves the current state as it is. Table-driven
engine: for every table in which the sub-map of `S` has no entry for `E`, the
iteration prints the no-event line and keeps all variables. Polymorphic engine:
with the table of `initiate_statemachine`, the member function for `E` runs the
handler of the base class, which prints its line and leaves the memory as it is. -/
theorem C2_absent_transition_is_rejected :
    (∀ (sm : Imperative.Table) (S : Imperative.State) (E : Imperative.Event) (input : String),
      StdMap.find Imperative.str_to_event input = some E →
      Imperative.lookup sm S E = some none →
      Imperative.loop_body (Imperative.Vars.mk sm S) input =
        some (Imperative.Line.no_event input (Imperative.state_name S),
          Imperative.Vars.mk sm S)) ∧
    (∀ (S : Imperative.State) (E : Imperative.Event) (m : Oop.Memory),
      Imperative.lookup (Imperative.initiate_statemachine StdMap.empty) S E = some none →
      Oop.WellFormed m →
      Oop.get_name m m.light.state = some (Imperative.state_name S) →
      Oop.invoke m (Oop.method_of E) = some (Oop.Line.impossible, m)) := by
  constructor
  · intro sm S E input hin hl
    simp [Imperative.loop_body, Imperative.dispatch, hin, hl]
  · intro S E m hl hw hn
    obtain ⟨c, hc⟩ := Oop.current_class_of_wellFormed m hw
    rw [Oop.get_name_eq m c hc] at hn
    have hcs : c = Oop.class_of S := Oop.class_eq_of_get_name c S (Option.some.inj hn)
    subst hcs
    rw [Imperative.lookup_initiate] at hl
    have ht : Spec.traffic_light_table S E = none := Option.some.inj hl
    have hs : Oop.successor (Oop.class_of S) (Oop.method_of E) = none := by
      rw [Oop.successor_class_of, ht]
      rfl
    exact Oop.invoke_rejected m _ _ hc hs

/-- Witness of C2: `Next` in `PowerOff`, in both programs. -/
theorem C2_absent_transition_is_rejected_witness :
    Imperative.loop_body
        (Imperative.Vars.mk (Imperative.initiate_statemachine StdMap.empty)
          Imperative.State.PowerOff) "Next" =
      some (Imperative.Line.no_event "Next" "PowerOff",
        Imperative.Vars.mk (Imperative.initiate_statemachine StdMap.empty)
          Imperative.State.PowerOff) ∧
    ∃ m, Oop.construct Oop.StateClass.PowerOff = some (Oop.Line.initial "PowerOff", m) ∧
      Oop.invoke m Oop.Event.next = some (Oop.Line.impossible, m) := by
  refine ⟨C2_absent_transition_is_rejected.1 (Imperative.initiate_statemachine StdMap.empty)
    Imperative.State.PowerOff Imperative.Event.Next "Next" (by decide) (by decide), ?_⟩
  obtain ⟨m, hm, hw, hc⟩ := Oop.construct_spec Oop.StateClass.PowerOff
  exact ⟨m, hm, C2_absent_transition_is_rejected.2 Imperative.State.PowerOff
    Imperative.Event.Next m (by decide) hw (Oop.get_name_eq m _ hc)⟩

/-- Claim C3: the end-to-end scenario. From `PowerOff`, the events `Next`,
`SwitchCapacity`, `Next`, `Next`, `SwitchCapacity` give, in both programs: a
rejection in `PowerOff`, then the transitions to `RedLight`, `GreenLight`,
`YellowLight` and `PowerOff`. The lines written are the ones listed, and the
current state after each prefix of the input is `PowerOff` (start), `PowerOff`,
`RedLight`, `GreenLight`, `YellowLight`, `PowerOff`. -/
theorem C3_end_to_end_scenario :
    Imperative.main ["Next", "SwitchCapacity", "Next", "Next", "SwitchCapacity"] =
      some ([Imperative.Line.no_event "Next" "PowerOff",
          Imperative.Line.new_state "RedLight",
          Imperative.Line.new_state "GreenLight",
          Imperative.Line.new_state "YellowLight",
          Imperative.Line.new_state "PowerOff"],
        Imperative.Vars.mk (Imperative.initiate_statemachine StdMap.empty)
          Imperative.State.PowerOff) ∧
    (["Next", "SwitchCapacity", "Next", "Next", "SwitchCapacity"].inits.map
        fun p => (Imperative.main p).map fun r => r.2.curr_state) =
      [some Imperative.State.PowerOff, some Imperative.State.PowerOff,
        some Imperative.State.RedLight, some Imperative.State.GreenLight,
        some Imperative.State.YellowLight, some Imperative.State.PowerOff] ∧
    (Oop.main ["next", "switchCapacity", "next", "next", "switchCapacity"]).map Prod.fst =
      some [Oop.Line.initial "PowerOff",
        Oop.Line.impossible,
        Oop.Line.arrow "PowerOff" "RedLight",
        Oop.Line.arrow "RedLight" "GreenLight",
        Oop.Line.arrow "GreenLight" "YellowLight",
        Oop.Line.arrow "YellowLight" "PowerOff"] ∧
    (["next", "switchCapacity", "next", "next", "switchCapacity"].inits.map
        fun p => (Oop.main p).bind fun r => Oop.get_name r.2 r.2.light.state) =
      [some "PowerOff", some "PowerOff", some "RedLight", some "GreenLight",
        some "YellowLight", some "PowerOff"] := by
  refine ⟨by decide, by decide, by decide, by decide⟩

/-- Claim C4: the two programs are equivalent on events. For every finite
sequence of events, delivered to the table-driven loop as the lines
`event_to_str[e]` and to the polymorphic loop as the keys of the corresponding
member functions, both started as their `main` does: both loops are defined,
the name of `curr_state` at the end is the name returned by `get_name` on the
current object, and the two loops reject the same events (position by
position; the first line of the polymorphic program is its constructor's).
Every prefix of a sequence is a sequence, so the names agree after each event. -/
theorem C4_engines_equivalent (evs : List Imperative.Event) :
    ∃ lines v lines2 m,
      Imperative.main (evs.map Imperative.event_name) = some (lines, v) ∧
      Oop.main (evs.map fun e => (Oop.method_of e).key) = some (lines2, m) ∧
      Oop.get_name m m.light.state = some (Imperative.state_name v.curr_state) ∧
      lines.map Imperative.Line.rejected = lines2.tail.map Oop.Line.rejected := by
  obtain ⟨m0, hm0, hw0, hc0⟩ := Oop.construct_spec Oop.StateClass.PowerOff
  obtain ⟨lines, v, lines2, m, h1, h2, -, h4, h5⟩ :=
    Oop.joint_run StdMap.empty evs Imperative.State.PowerOff m0 hw0 hc0
  refine ⟨lines, v, Oop.Line.initial Oop.StateClass.PowerOff.get_name :: lines2, m, h1, ?_, ?_,
    by simpa using h5⟩
  · simp [Oop.main, hm0, h2]
  · rw [Oop.get_name_eq m _ h4, Oop.class_of_get_name]

/-- Claim C5: the table built by `initiate_statemachine`, whatever the global
held before, is the traffic-light table of the specification: the lookup of
lines 74-75 is defined for every state and finds exactly the seven listed
targets, and nothing for every other pair. -/
theorem C5_table_is_traffic_light_table (sm0 : Imperative.Table) (S : Imperative.State)
    (E : Imperative.Event) :
    Imperative.lookup (Imperative.initiate_statemachine sm0) S E =
      some (Spec.traffic_light_table S E) :=
  Imperative.lookup_initiate sm0 S E

/-- Counterexample to C6 as stated: the table that only holds
`PowerOff -[SwitchCapacity]-> RedLight`, started in its source key `PowerOff`,
on the events `SwitchCapacity`, `Next`. The first event stores `RedLight`, which
is no source key; the second iteration dereferences `statemachine.end()` at
line 74, so the run is undefined and the program does not determine what
`curr_state` holds afterwards: there is no final state of which the claim could
hold. -/
theorem C6_counterexample :
    Imperative.State.PowerOff ∈
      StdMap.keys (StdMap.assign (StdMap.empty : Imperative.Table) Imperative.State.PowerOff
        (StdMap.ofList [(Imperative.Event.SwitchCapacity, Imperative.State.RedLight)])) ∧
    (Imperative.main_loop
        (Imperative.Vars.mk
          (StdMap.assign (StdMap.empty : Imperative.Table) Imperative.State.PowerOff
            (StdMap.ofList [(Imperative.Event.SwitchCapacity, Imperative.State.RedLight)]))
          Imperative.State.PowerOff) ["SwitchCapacity"]).map (fun r => r.2.curr_state) =
      some Imperative.State.RedLight ∧
    Imperative.main_loop
        (Imperative.Vars.mk
          (StdMap.assign (StdMap.empty : Imperative.Table) Imperative.State.PowerOff
            (StdMap.ofList [(Imperative.Event.SwitchCapacity, Imperative.State.RedLight)]))
          Imperative.State.PowerOff) ["SwitchCapacity", "Next"] = none ∧
    ¬ ∃ lines v,
      Imperative.main_loop
          (Imperative.Vars.mk
            (StdMap.assign (StdMap.empty : Imperative.Table) Imperative.State.PowerOff
              (StdMap.ofList [(Imperative.Event.SwitchCapacity, Imperative.State.RedLight)]))
            Imperative.State.PowerOff) ["SwitchCapacity", "Next"] = some (lines, v) ∧
        (v.curr_state = Imperative.State.PowerOff ∨
          v.curr_state ∈
            StdMap.keys (StdMap.assign (StdMap.empty : Imperative.Table)
              Imperative.State.PowerOff
              (StdMap.ofList [(Imperative.Event.SwitchCapacity, Imperative.State.RedLight)])) ∨
          ∃ sub ∈
            StdMap.values (StdMap.assign (StdMap.empty : Imperative.Table)
              Imperative.State.PowerOff
              (StdMap.ofList [(Imperative.Event.SwitchCapacity, Imperative.State.RedLight)])),
            v.curr_state ∈ StdMap.values sub) := by
  have hn : Imperative.main_loop
      (Imperative.Vars.mk
        (StdMap.assign (StdMap.empty : Imperative.Table) Imperative.State.PowerOff
          (StdMap.ofList [(Imperative.Event.SwitchCapacity, Imperative.State.RedLight)]))
        Imperative.State.PowerOff) ["SwitchCapacity", "Next"] = none := by decide
  refine ⟨by decide, by decide, hn, ?_⟩
  rintro ⟨lines, v, h, -⟩
  rw [hn] at h
  exact Option.noConfusion h

/-- Claim C6, amended: no state from outside the table, where the table-driven
lookup is defined. Table-driven engine: for every table whose target values are
all source keys, every initial state that is a source key and every input, the
loop runs to its end, keeps the table, and `curr_state` is then the initial
state, a source key or a target value of the table. For every table, initial
state and input whatsoever, the same holds of `curr_state` whenever the loop
runs to its end, that is, whenever no iteration looks up a state that is no
source key. Polymorphic engine: for every class of the initial object and every
input, the loop runs to its end and the current object has the class of the
initial one or the name of a state of the table of `initiate_statemachine`. -/
theorem C6_states_stay_in_table_where_defined :
    (∀ (sm : Imperative.Table) (s0 : Imperative.State) (inputs : List String),
      s0 ∈ StdMap.keys sm →
      (∀ sub ∈ StdMap.values sm, ∀ t ∈ StdMap.values sub, t ∈ StdMap.keys sm) →
      ∃ lines v,
        Imperative.main_loop (Imperative.Vars.mk sm s0) inputs = some (lines, v) ∧
        v.statemachine = sm ∧
        (v.curr_state = s0 ∨ v.curr_state ∈ StdMap.keys sm ∨
          ∃ sub ∈ StdMap.values sm, v.curr_state ∈ StdMap.values sub)) ∧
    (∀ (sm : Imperative.Table) (s0 : Imperative.State) (inputs : List String)
        (lines : List Imperative.Line) (v : Imperative.Vars),
      Imperative.main_loop (Imperative.Vars.mk sm s0) inputs = some (lines, v) →
      v.curr_state = s0 ∨ v.curr_state ∈ StdMap.keys sm ∨
        ∃ sub ∈ StdMap.values sm, v.curr_state ∈ StdMap.values sub) ∧
    (∀ (c0 : Oop.StateClass) (inputs : List String),
      ∃ line m0 lines m c,
        Oop.construct c0 = some (line, m0) ∧
        Oop.main_loop m0 inputs = some (lines, m) ∧
        Oop.current_class m = some c ∧
        (c = c0 ∨ ∃ s, (s ∈ StdMap.keys (Imperative.initiate_statemachine StdMap.empty) ∨
            ∃ sub ∈ StdMap.values (Imperative.initiate_statemachine StdMap.empty),
              s ∈ StdMap.values sub) ∧
          c.get_name = Imperative.state_name s)) := by
  have hcond : ∀ (sm : Imperative.Table) (s0 : Imperative.State) (inputs : List String)
      (lines : List Imperative.Line) (v : Imperative.Vars),
      Imperative.main_loop (Imperative.Vars.mk sm s0) inputs = some (lines, v) →
      v.curr_state = s0 ∨ v.curr_state ∈ StdMap.keys sm ∨
        ∃ sub ∈ StdMap.values sm, v.curr_state ∈ StdMap.values sub := by
    intro sm s0 inputs lines v h
    rcases (Imperative.main_loop_table _ inputs lines v h).2 with h1 | h1
    · exact Or.inl h1
    · exact Or.inr (Or.inr h1)
  refine ⟨?_, hcond, ?_⟩
  · intro sm s0 inputs h0 hclosed
    obtain ⟨⟨lines, v⟩, hr⟩ :=
      Imperative.main_loop_defined_of_closed sm hclosed inputs s0 h0
    exact ⟨lines, v, hr, (Imperative.main_loop_table _ inputs lines v hr).1,
      hcond sm s0 inputs lines v hr⟩
  · intro c0 inputs
    obtain ⟨m0, hm0, hw0, hc0⟩ := Oop.construct_spec c0
    obtain ⟨lines, m, h1, -, c, hc, hor⟩ := Oop.oop_main_loop_total inputs m0 hw0 c0 hc0
    refine ⟨_, m0, lines, m, c, hm0, h1, hc, ?_⟩
    rcases hor with h | ⟨c1, e, hs⟩
    · exact Or.inl h
    · right
      have hex : ∃ s, c = Oop.class_of s := by
        cases c1 <;> cases e <;> simp [Oop.successor] at hs <;> subst hs
        all_goals first
          | exact ⟨Imperative.State.PowerOff, rfl⟩
          | exact ⟨Imperative.State.RedLight, rfl⟩
          | exact ⟨Imperative.State.YellowLight, rfl⟩
          | exact ⟨Imperative.State.GreenLight, rfl⟩
      obtain ⟨s, hs2⟩ := hex
      refine ⟨s, Or.inl ?_, ?_⟩
      · cases s <;> decide
      · rw [hs2, Oop.class_of_get_name]

/-- Witness of C6 amended: the program's own table, whose targets are all
source keys, started in `PowerOff` on three lines: the loop runs to its end,
and the run ending in `GreenLight` ends in a source key of the table. -/
theorem C6_states_stay_in_table_where_defined_witness :
    (∃ lines v,
      Imperative.main_loop
          (Imperative.Vars.mk (Imperative.initiate_statemachine StdMap.empty)
            Imperative.State.PowerOff) ["SwitchCapacity", "x", "Next"] = some (lines, v) ∧
        v.statemachine = Imperative.initiate_statemachine StdMap.empty ∧
        (v.curr_state = Imperative.State.PowerOff ∨
          v.curr_state ∈ StdMap.keys (Imperative.initiate_statemachine StdMap.empty) ∨
          ∃ sub ∈ StdMap.values (Imperative.initiate_statemachine StdMap.empty),
            v.curr_state ∈ StdMap.values sub)) ∧
    Imperative.main_loop
        (Imperative.Vars.mk (Imperative.initiate_statemachine StdMap.empty)
          Imperative.State.PowerOff) ["SwitchCapacity", "x", "Next"] =
      some ([Imperative.Line.new_state "RedLight", Imperative.Line.not_determined "x",
          Imperative.Line.new_state "GreenLight"],
        Imperative.Vars.mk (Imperative.initiate_statemachine StdMap.empty)
          Imperative.State.GreenLight) ∧
    (Imperative.State.GreenLight = Imperative.State.PowerOff ∨
      Imperative.State.GreenLight ∈
        StdMap.keys (Imperative.initiate_statemachine StdMap.empty) ∨
      ∃ sub ∈ StdMap.values (Imperative.initiate_statemachine StdMap.empty),
        Imperative.State.GreenLight ∈ StdMap.values sub) :=
  ⟨C6_states_stay_in_table_where_defined.1 (Imperative.initiate_statemachine StdMap.empty)
      Imperative.State.PowerOff ["SwitchCapacity", "x", "Next"] (by decide) (by decide),
    by decide,
    C6_states_stay_in_table_where_defined.2.1 (Imperative.initiate_statemachine StdMap.empty)
      Imperative.State.PowerOff ["SwitchCapacity", "x", "Next"]
      [Imperative.Line.new_state "RedLight", Imperative.Line.not_determined "x",
        Imperative.Line.new_state "GreenLight"]
      (Imperative.Vars.mk (Imperative.initiate_statemachine StdMap.empty)
        Imperative.State.GreenLight) (by decide)⟩

/-- Counterexample to C7 as stated: in the table that only holds
`PowerOff -[SwitchCapacity]-> RedLight`, the state `RedLight` is not a source
key; the lookup of lines 74-75 for `(RedLight, Next)` dereferences
`statemachine.end()`, so it does not return "not found", the iteration does not
report a rejection, and the run `SwitchCapacity`, `Next` from `PowerOff` is
undefined at its second line. -/
theorem C7_counterexample :
    Imperative.State.RedLight ∉
      StdMap.keys (StdMap.assign (StdMap.empty : Imperative.Table) Imperative.State.PowerOff
        (StdMap.ofList [(Imperative.Event.SwitchCapacity, Imperative.State.RedLight)])) ∧
    Imperative.lookup
        (StdMap.assign (StdMap.empty : Imperative.Table) Imperative.State.PowerOff
          (StdMap.ofList [(Imperative.Event.SwitchCapacity, Imperative.State.RedLight)]))
        Imperative.State.RedLight Imperative.Event.Next ≠ some none ∧
    Imperative.loop_body
        (Imperative.Vars.mk
          (StdMap.assign (StdMap.empty : Imperative.Table) Imperative.State.PowerOff
            (StdMap.ofList [(Imperative.Event.SwitchCapacity, Imperative.State.RedLight)]))
          Imperative.State.RedLight) "Next" = none ∧
    Imperative.main_loop
        (Imperative.Vars.mk
          (StdMap.assign (StdMap.empty : Imperative.Table) Imperative.State.PowerOff
            (StdMap.ofList [(Imperative.Event.SwitchCapacity, Imperative.State.RedLight)]))
          Imperative.State.PowerOff) ["SwitchCapacity", "Next"] = none := by
  refine ⟨by decide, by decide, by decide, by decide⟩

/-- Claim C7, amended: the lookup of lines 74-75 is defined exactly when the
current state is a source key of the table. For every table and every state `S`
that is a source key whose sub-map has no entry for `E` (an empty sub-map
included), the lookup returns "not found" and the iteration reports the
rejection and keeps all variables. -/
theorem C7_rejected_when_state_is_a_key (sm : Imperative.Table) (S : Imperative.State)
    (E : Imperative.Event) (input : String)
    (hin : StdMap.find Imperative.str_to_event input = some E) :
    ((Imperative.lookup sm S E).isSome = true ↔ S ∈ StdMap.keys sm) ∧
    (∀ sub, StdMap.find sm S = some sub → StdMap.find sub E = none →
      Imperative.lookup sm S E = some none ∧
      Imperative.loop_body (Imperative.Vars.mk sm S) input =
        some (Imperative.Line.no_event input (Imperative.state_name S),
          Imperative.Vars.mk sm S)) := by
  constructor
  · rw [← StdMap.find_isSome_iff]
    unfold Imperative.lookup
    cases StdMap.find sm S <;> simp
  · intro sub hs he
    simp [Imperative.loop_body, Imperative.dispatch, Imperative.lookup, hin, hs, he]

/-- Witness of C7 amended: `PowerOff` is a source key with an empty sub-map. -/
theorem C7_rejected_when_state_is_a_key_witness :
    Imperative.lookup
        (StdMap.assign (StdMap.empty : Imperative.Table) Imperative.State.PowerOff StdMap.empty)
        Imperative.State.PowerOff Imperative.Event.Next = some none ∧
    Imperative.loop_body
        (Imperative.Vars.mk
          (StdMap.assign (StdMap.empty : Imperative.Table) Imperative.State.PowerOff
            StdMap.empty)
          Imperative.State.PowerOff) "Next" =
      some (Imperative.Line.no_event "Next" "PowerOff",
        Imperative.Vars.mk
          (StdMap.assign (StdMap.empty : Imperative.Table) Imperative.State.PowerOff
            StdMap.empty)
          Imperative.State.PowerOff) :=
  (C7_rejected_when_state_is_a_key
    (StdMap.assign (StdMap.empty : Imperative.Table) Imperative.State.PowerOff StdMap.empty)
    Imperative.State.PowerOff Imperative.Event.Next "Next" (by decide)).2
    StdMap.empty (by decide) (by decide)

/-- Claim C8: the current state is always defined. Polymorphic engine: for every
class of the initial object and every input, the constructor and the loop are
defined (no call goes through a null or dangling pointer), and at the end
`TrafficLight::state` is a non-null pointer to a live object. Table-driven
engine: for every input the loop of `main` is defined and ends with a value in
`curr_state`. -/
theorem C8_current_state_always_defined (c0 : Oop.StateClass) (inputs : List String) :
    (∃ line m0 lines m a obj,
      Oop.construct c0 = some (line, m0) ∧
      Oop.main_loop m0 inputs = some (lines, m) ∧
      m.light.state = some a ∧ m.heap a = some obj) ∧
    (∃ lines v, Imperative.main inputs = some (lines, v)) := by
  constructor
  · obtain ⟨m0, hm0, hw0, hc0⟩ := Oop.construct_spec c0
    obtain ⟨lines, m, h1, ⟨a, obj, hs, hh, -, -⟩, -⟩ :=
      Oop.oop_main_loop_total inputs m0 hw0 c0 hc0
    exact ⟨_, m0, lines, m, a, obj, hm0, h1, hs, hh⟩
  · obtain ⟨lines, v, h, -⟩ :=
      Imperative.main_loop_total StdMap.empty inputs Imperative.State.PowerOff
    exact ⟨lines, v, h⟩

/-- Claim C9: processing one line does not change the transition table: whenever
an iteration of the loop is defined, the global `statemachine` afterwards equals
the one before, and so every lookup gives the same result as before. -/
theorem C9_iteration_keeps_table (v : Imperative.Vars) (input : String)
    (line : Imperative.Line) (v2 : Imperative.Vars)
    (h : Imperative.loop_body v input = some (line, v2)) :
    v2.statemachine = v.statemachine ∧
    ∀ S E, Imperative.lookup v2.statemachine S E = Imperative.lookup v.statemachine S E := by
  have ht := (Imperative.loop_body_table v input line v2 h).1
  exact ⟨ht, fun S E => by rw [ht]⟩

/-- Witness of C9: a transition and the table of the program. -/
theorem C9_iteration_keeps_table_witness :
    (Imperative.Vars.mk (Imperative.initiate_statemachine StdMap.empty)
        Imperative.State.RedLight).statemachine =
      (Imperative.Vars.mk (Imperative.initiate_statemachine StdMap.empty)
        Imperative.State.PowerOff).statemachine ∧
    ∀ S E,
      Imperative.lookup (Imperative.Vars.mk (Imperative.initiate_statemachine StdMap.empty)
        Imperative.State.RedLight).statemachine S E =
      Imperative.lookup (Imperative.Vars.mk (Imperative.initiate_statemachine StdMap.empty)
        Imperative.State.PowerOff).statemachine S E :=
  C9_iteration_keeps_table
    (Imperative.Vars.mk (Imperative.initiate_statemachine StdMap.empty)
      Imperative.State.PowerOff)
    "SwitchCapacity" (Imperative.Line.new_state "RedLight")
    (Imperative.Vars.mk (Imperative.initiate_statemachine StdMap.empty)
      Imperative.State.RedLight) (by decide)

/-- Claim C10: last write wins. For every table, state `S`, event `E` and states
`A`, `B`: after `statemachine[S] = m1` with `m1` holding `E -> A`, the lookup of
`(S, E)` finds `A`; after a later `statemachine[S] = m2` with `m2` holding
`E -> B`, it finds `B`. -/
theorem C10_last_write_wins (sm : Imperative.Table) (S : Imperative.State)
    (E : Imperative.Event) (A B : Imperative.State) (m1 m2 : StdMap Imperative.Event Imperative.State)
    (hA : StdMap.find m1 E = some A) (hB : StdMap.find m2 E = some B) :
    Imperative.lookup (StdMap.assign sm S m1) S E = some (some A) ∧
    Imperative.lookup (StdMap.assign (StdMap.assign sm S m1) S m2) S E = some (some B) := by
  simp [Imperative.lookup, StdMap.find_assign_same, hA, hB]

/-- Witness of C10: `PowerOff -[SwitchCapacity]->` is registered to `RedLight` by
`initiate_statemachine` and then again to `GreenLight`. -/
theorem C10_last_write_wins_witness :
    Imperative.lookup
        (StdMap.assign (Imperative.initiate_statemachine StdMap.empty) Imperative.State.PowerOff
          (StdMap.ofList [(Imperative.Event.SwitchCapacity, Imperative.State.RedLight)]))
        Imperative.State.PowerOff Imperative.Event.SwitchCapacity =
      some (some Imperative.State.RedLight) ∧
    Imperative.lookup
        (StdMap.assign
          (StdMap.assign (Imperative.initiate_statemachine StdMap.empty)
            Imperative.State.PowerOff
            (StdMap.ofList [(Imperative.Event.SwitchCapacity, Imperative.State.RedLight)]))
          Imperative.State.PowerOff
          (StdMap.ofList [(Imperative.Event.SwitchCapacity, Imperative.State.GreenLight)]))
        Imperative.State.PowerOff Imperative.Event.SwitchCapacity =
      some (some Imperative.State.GreenLight) :=
  C10_last_write_wins (Imperative.initiate_statemachine StdMap.empty) Imperative.State.PowerOff
    Imperative.Event.SwitchCapacity Imperative.State.RedLight Imperative.State.GreenLight
    (StdMap.ofList [(Imperative.Event.SwitchCapacity, Imperative.State.RedLight)])
    (StdMap.ofList [(Imperative.Event.SwitchCapacity, Imperative.State.GreenLight)])
    (by decide) (by decide)

/-- Claim C11: an unknown name is reported by the driver alone. Table-driven
program: for all variables (any table, even one in which the current state is
no source key, so that consulting it would be undefined) and every line that is
no key of `str_to_event`, the iteration prints the not-determined line and keeps
all variables. Polymorphic program: for every memory (even one whose `state` is
null, so that any call of the engine would be undefined) and every line that is
no key of `event_by_name`, the iteration prints the no-event line and keeps the
memory. -/
theorem C11_unknown_name_is_reported_by_the_driver :
    (∀ (v : Imperative.Vars) (input : String),
      StdMap.find Imperative.str_to_event input = none →
      Imperative.loop_body v input = some (Imperative.Line.not_determined input, v)) ∧
    (∀ (m : Oop.Memory) (input : String),
      StdMap.find Oop.event_by_name input = none →
      Oop.loop_body m input = some (Oop.Line.no_event input, m)) := by
  constructor
  · intro v input h
    simp [Imperative.loop_body, h]
  · intro m input h
    simp [Oop.loop_body, h]

/-- Witness of C11: the line `Go` with an empty table, where every lookup is
undefined, and with the memory in which `state` is still null. -/
theorem C11_unknown_name_is_reported_by_the_driver_witness :
    Imperative.lookup StdMap.empty Imperative.State.PowerOff Imperative.Event.Next = none ∧
    Imperative.loop_body (Imperative.Vars.mk StdMap.empty Imperative.State.PowerOff) "Go" =
      some (Imperative.Line.not_determined "Go",
        Imperative.Vars.mk StdMap.empty Imperative.State.PowerOff) ∧
    Oop.invoke Oop.Memory.initial Oop.Event.next = none ∧
    Oop.loop_body Oop.Memory.initial "Go" = some (Oop.Line.no_event "Go", Oop.Memory.initial) :=
  ⟨by decide,
    C11_unknown_name_is_reported_by_the_driver.1
      (Imperative.Vars.mk StdMap.empty Imperative.State.PowerOff) "Go" (by decide),
    rfl,
    C11_unknown_name_is_reported_by_the_driver.2 Oop.Memory.initial "Go" (by decide)⟩

/-- Counterexample to C12 as stated: on the single line `SwitchCapacity` the
table-driven program recognises the event and ends in `RedLight`, while the
polymorphic program, whose keys are `switchCapacity` and `next`, does not
recognise the line and stays in `PowerOff`. -/
theorem C12_counterexample :
    StdMap.find Imperative.str_to_event "SwitchCapacity" =
      some Imperative.Event.SwitchCapacity ∧
    StdMap.find Oop.event_by_name "SwitchCapacity" = none ∧
    (Imperative.main ["SwitchCapacity"]).map
      (fun r => Imperative.state_name r.2.curr_state) = some "RedLight" ∧
    (Oop.main ["SwitchCapacity"]).bind
      (fun r => Oop.get_name r.2 r.2.light.state) = some "PowerOff" ∧
    (Oop.main ["SwitchCapacity"]).map Prod.fst =
      some [Oop.Line.initial "PowerOff", Oop.Line.no_event "SwitchCapacity"] := by
  refine ⟨by decide, by decide, by decide, by decide, by decide⟩

/-- Claim C12, amended: the two programs behave identically as drivers up to the
spelling of the event names. For every finite sequence of lines, when the
table-driven program reads the lines and the polymorphic program reads the
respelled lines (`Next` and `next` exchanged, `SwitchCapacity` and
`switchCapacity` exchanged), both from `PowerOff`: both loops are defined, the
name of `curr_state` at the end is the name `get_name` returns for the current
object, and a line is recognised by the table-driven program exactly when its
respelling is recognised by the polymorphic one. -/
theorem C12_drivers_agree_up_to_spelling (inputs : List String) :
    (∃ lines v lines2 m,
      Imperative.main inputs = some (lines, v) ∧
      Oop.main (inputs.map Oop.respell) = some (lines2, m) ∧
      Oop.get_name m m.light.state = some (Imperative.state_name v.curr_state)) ∧
    (∀ input : String,
      (StdMap.find Imperative.str_to_event input).isSome =
        (StdMap.find Oop.event_by_name (Oop.respell input)).isSome) := by
  constructor
  · obtain ⟨m0, hm0, hw0, hc0⟩ := Oop.construct_spec Oop.StateClass.PowerOff
    obtain ⟨lines, v, lines2, m, h1, h2, -, h4⟩ :=
      Oop.joint_lines StdMap.empty inputs Imperative.State.PowerOff m0 hw0 hc0
    refine ⟨lines, v, Oop.Line.initial Oop.StateClass.PowerOff.get_name :: lines2, m, h1, ?_, ?_⟩
    · simp [Oop.main, hm0, h2]
    · rw [Oop.get_name_eq m _ h4, Oop.class_of_get_name]
  · intro input
    rw [Oop.find_respell]
    cases StdMap.find Imperative.str_to_event input <;> rfl

/-- Claim C13: in the table-driven program the current state is a source key at
the start of every iteration. For every input split as `pre ++ post`, the loop
of `main` on `pre` is defined and leaves the table of `initiate_statemachine`
and a `curr_state` that is one of its source keys, so the lookup of lines 74-75
is defined for every event; the iteration that follows starts from these
variables, and `main` on the whole input is defined. -/
theorem C13_current_state_is_always_a_source_key (pre post : List String) :
    ∃ lines v,
      Imperative.main pre = some (lines, v) ∧
      v.statemachine = Imperative.initiate_statemachine StdMap.empty ∧
      v.curr_state ∈ StdMap.keys v.statemachine ∧
      (∀ E, ∃ r, Imperative.lookup v.statemachine v.curr_state E = some r) ∧
      ∃ lines2 v2,
        Imperative.main_loop v post = some (lines2, v2) ∧
        Imperative.main (pre ++ post) = some (lines ++ lines2, v2) := by
  obtain ⟨lines, v, h, hv⟩ :=
    Imperative.main_loop_total StdMap.empty pre Imperative.State.PowerOff
  obtain ⟨sm, s⟩ := v
  simp only at hv
  subst hv
  obtain ⟨lines2, v2, h2, -⟩ := Imperative.main_loop_total StdMap.empty post s
  refine ⟨lines, _, h, rfl, Imperative.mem_keys_initiate _ s, ?_, lines2, v2, h2, ?_⟩
  · intro E
    exact ⟨_, Imperative.lookup_initiate _ s E⟩
  · show Imperative.main_loop
        (Imperative.Vars.mk (Imperative.initiate_statemachine StdMap.empty)
          Imperative.State.PowerOff) (pre ++ post) = _
    rw [Imperative.main_loop_append, h]
    simp only
    rw [h2]

/-- Claim C14: with the traffic-light transitions an event is rejected exactly
in the pair (`PowerOff`, `Next`). Table-driven engine: with the table of
`initiate_statemachine`, for every state, event and text of the input line,
lines 73-83 are defined and print the no-event line exactly when the state is
`PowerOff` and the event is `Next`. Polymorphic engine: on every well-formed
memory whose current object belongs to one of the four subclasses, each member
function is defined and prints the line of the base-class handler exactly when
the class is `PowerOff` and the function is `next`. In particular
`SwitchCapacity` is never rejected. -/
theorem C14_only_next_in_power_off_is_rejected :
    (∀ (sm0 : Imperative.Table) (S : Imperative.State) (E : Imperative.Event)
        (input : String),
      ∃ line v,
        Imperative.dispatch (Imperative.Vars.mk (Imperative.initiate_statemachine sm0) S)
          input E = some (line, v) ∧
        (line.rejected = true ↔
          S = Imperative.State.PowerOff ∧ E = Imperative.Event.Next)) ∧
    (∀ (m : Oop.Memory) (c : Oop.StateClass) (e : Oop.Event),
      Oop.WellFormed m → Oop.current_class m = some c → c ≠ Oop.StateClass.State →
      ∃ line m2,
        Oop.invoke m e = some (line, m2) ∧
        (line.rejected = true ↔ c = Oop.StateClass.PowerOff ∧ e = Oop.Event.next)) := by
  constructor
  · intro sm0 S E input
    rw [Imperative.dispatch_initiate]
    cases S <;> cases E <;> refine ⟨_, _, rfl, ?_⟩ <;> simp [Imperative.Line.rejected]
  · intro m c e hw hc hne
    obtain ⟨line, m2, h1, -, -, h4⟩ := Oop.invoke_total m hw c e hc
    refine ⟨line, m2, h1, ?_⟩
    have hrej : line.rejected = true ↔ line = Oop.Line.impossible := by
      cases line <;> simp [Oop.Line.rejected]
    rw [hrej, h4]
    cases c <;> cases e <;> simp [Oop.successor] at hne ⊢

/-- Witness of C14: `next` on the freshly constructed `TrafficLight` is
rejected, `switchCapacity` is not. -/
theorem C14_only_next_in_power_off_is_rejected_witness :
    ∃ m line1 m1 line2 m2,
      Oop.construct Oop.StateClass.PowerOff = some (Oop.Line.initial "PowerOff", m) ∧
      Oop.invoke m Oop.Event.next = some (line1, m1) ∧ line1.rejected = true ∧
      Oop.invoke m Oop.Event.switchCapacity = some (line2, m2) ∧ line2.rejected = false := by
  obtain ⟨m, hm, hw, hc⟩ := Oop.construct_spec Oop.StateClass.PowerOff
  obtain ⟨line1, m1, h1, hr1⟩ := C14_only_next_in_power_off_is_rejected.2 m
    Oop.StateClass.PowerOff Oop.Event.next hw hc (by decide)
  obtain ⟨line2, m2, h2, hr2⟩ := C14_only_next_in_power_off_is_rejected.2 m
    Oop.StateClass.PowerOff Oop.Event.switchCapacity hw hc (by decide)
  refine ⟨m, line1, m1, line2, m2, hm, h1, hr1.mpr ⟨rfl, rfl⟩, h2, ?_⟩
  cases hb : line2.rejected with
  | false => rfl
  | true => exact absurd (hr2.mp hb).2 (by decide)

/-- Claim C15: `Next` cycles the three lit states with period three. For every
state `S` among `RedLight`, `GreenLight`, `YellowLight`, in both programs:
three times `Next` from `S` is not rejected at any step and ends in `S`; `Next`
once and `Next` twice end in a state other than `S`; `SwitchCapacity` from `S`
ends in `PowerOff`. The table-driven program runs with the table of
`initiate_statemachine`, the polymorphic one on any well-formed memory whose
current object has the class named `S`. -/
theorem C15_next_has_period_three :
    (∀ S ∈ [Imperative.State.RedLight, Imperative.State.GreenLight,
        Imperative.State.YellowLight],
      (∃ lines,
        Imperative.main_loop
          (Imperative.Vars.mk (Imperative.initiate_statemachine StdMap.empty) S)
          ["Next", "Next", "Next"] =
          some (lines, Imperative.Vars.mk (Imperative.initiate_statemachine StdMap.empty) S) ∧
        lines.map Imperative.Line.rejected = [false, false, false]) ∧
      (∃ lines v,
        Imperative.main_loop
          (Imperative.Vars.mk (Imperative.initiate_statemachine StdMap.empty) S)
          ["Next"] = some (lines, v) ∧ v.curr_state ≠ S) ∧
      (∃ lines v,
        Imperative.main_loop
          (Imperative.Vars.mk (Imperative.initiate_statemachine StdMap.empty) S)
          ["Next", "Next"] = some (lines, v) ∧ v.curr_state ≠ S) ∧
      (∃ lines,
        Imperative.main_loop
          (Imperative.Vars.mk (Imperative.initiate_statemachine StdMap.empty) S)
          ["SwitchCapacity"] =
          some (lines, Imperative.Vars.mk (Imperative.initiate_statemachine StdMap.empty)
            Imperative.State.PowerOff))) ∧
    (∀ (m : Oop.Memory) (c : Oop.StateClass),
      Oop.WellFormed m → Oop.current_class m = some c →
      c ∈ [Oop.StateClass.RedLight, Oop.StateClass.GreenLight, Oop.StateClass.YellowLight] →
      (∃ lines m3,
        Oop.main_loop m ["next", "next", "next"] = some (lines, m3) ∧
        lines.map Oop.Line.rejected = [false, false, false] ∧
        Oop.current_class m3 = some c) ∧
      (∃ lines m1 c1,
        Oop.main_loop m ["next"] = some (lines, m1) ∧
        Oop.current_class m1 = some c1 ∧ c1 ≠ c) ∧
      (∃ lines m2 c2,
        Oop.main_loop m ["next", "next"] = some (lines, m2) ∧
        Oop.current_class m2 = some c2 ∧ c2 ≠ c) ∧
      (∃ lines m4,
        Oop.main_loop m ["switchCapacity"] = some (lines, m4) ∧
        Oop.current_class m4 = some Oop.StateClass.PowerOff)) := by
  constructor
  · intro S hS
    simp only [List.mem_cons, List.mem_singleton, List.not_mem_nil, or_false] at hS
    rcases hS with rfl | rfl | rfl <;>
      exact ⟨⟨_, rfl, by decide⟩, ⟨_, _, rfl, by decide⟩, ⟨_, _, rfl, by decide⟩, ⟨_, rfl⟩⟩
  · intro m c hw hc hmem
    obtain ⟨l3, m3, h3, -, r3, c3⟩ :=
      Oop.main_loop_keys [Oop.Event.next, Oop.Event.next, Oop.Event.next] m hw c hc
    obtain ⟨l1, m1, h1, -, -, c1⟩ := Oop.main_loop_keys [Oop.Event.next] m hw c hc
    obtain ⟨l2, m2, h2, -, -, c2⟩ :=
      Oop.main_loop_keys [Oop.Event.next, Oop.Event.next] m hw c hc
    obtain ⟨l4, m4, h4, -, -, c4⟩ := Oop.main_loop_keys [Oop.Event.switchCapacity] m hw c hc
    simp only [List.mem_cons, List.mem_singleton, List.not_mem_nil, or_false] at hmem
    rcases hmem with rfl | rfl | rfl
    · exact ⟨⟨l3, m3, h3, r3, c3⟩, ⟨l1, m1, _, h1, c1, by decide⟩,
        ⟨l2, m2, _, h2, c2, by decide⟩, ⟨l4, m4, h4, c4⟩⟩
    · exact ⟨⟨l3, m3, h3, r3, c3⟩, ⟨l1, m1, _, h1, c1, by decide⟩,
        ⟨l2, m2, _, h2, c2, by decide⟩, ⟨l4, m4, h4, c4⟩⟩
    · exact ⟨⟨l3, m3, h3, r3, c3⟩, ⟨l1, m1, _, h1, c1, by decide⟩,
        ⟨l2, m2, _, h2, c2, by decide⟩, ⟨l4, m4, h4, c4⟩⟩

/-- Witness of C15: `RedLight` in the table-driven program, and the
`TrafficLight` constructed on a `RedLight` object in the polymorphic one. -/
theorem C15_next_has_period_three_witness :
    (∃ lines,
      Imperative.main_loop
        (Imperative.Vars.mk (Imperative.initiate_statemachine StdMap.empty)
          Imperative.State.RedLight)
        ["Next", "Next", "Next"] =
        some (lines, Imperative.Vars.mk (Imperative.initiate_statemachine StdMap.empty)
          Imperative.State.RedLight) ∧
      lines.map Imperative.Line.rejected = [false, false, false]) ∧
    ∃ line m lines m3,
      Oop.construct Oop.StateClass.RedLight = some (line, m) ∧
      Oop.main_loop m ["next", "next", "next"] = some (lines, m3) ∧
      lines.map Oop.Line.rejected = [false, false, false] ∧
      Oop.current_class m3 = some Oop.StateClass.RedLight := by
  refine ⟨(C15_next_has_period_three.1 Imperative.State.RedLight (by decide)).1, ?_⟩
  obtain ⟨m, hm, hw, hc⟩ := Oop.construct_spec Oop.StateClass.RedLight
  obtain ⟨lines, m3, h⟩ :=
    (C15_next_has_period_three.2 m Oop.StateClass.RedLight hw hc (by decide)).1
  exact ⟨_, m, lines, m3, hm, h⟩
